import Mathlib

/-!
Verification of the nogo-backend board-game server core: a shallow embedding
of the rule engine (Board/State), the match state machine (Contest with its
PlayerList roster) and the Room protocol dispatcher, together with theorems
settling the specification claims about them.

Machine integers of the source are modelled as Int/Nat (all arithmetic in the
embedded code stays far from any overflow boundary).  Functions of the source
that throw are modelled with Except.  The recursive liberty search is embedded
with an explicit fuel argument bounding the recursion depth; the source's
recursion visits each cell of the 9 x 9 board at most once, so depth 82 is
never exhausted (the completeness theorem below depends on exactly this).
-/

namespace NoGo

/-- Board size: the source fixes a 9 x 9 grid. -/
def rank_n : Int := 9

/-- A coordinate pair, as in the source (int fields, default (-1, -1) sentinel). -/
structure Position where
  x : Int
  y : Int
deriving DecidableEq, Repr

/-- The default-constructed Position of the source: the invalid sentinel. -/
def Position.invalid : Position := ⟨-1, -1⟩

/-- Componentwise addition, the source's Position operator+. -/
def Position.add (p q : Position) : Position := ⟨p.x + q.x, p.y + q.y⟩

/-- The source's Position explicit operator bool: both coordinates nonnegative. -/
def Position.isValid (p : Position) : Bool := decide (0 ≤ p.x) && decide (0 ≤ p.y)

/-- Role: BLACK (id 1), WHITE (id -1) and NONE (id 0); only these three ids
are ever constructed by the source. -/
inductive Role where
  | BLACK
  | WHITE
  | NONE
deriving DecidableEq, Repr

/-- Role negation, the source's operator- (negation of the id). -/
def Role.neg : Role → Role
  | .BLACK => .WHITE
  | .WHITE => .BLACK
  | .NONE => .NONE

/-- The source's Role explicit operator bool: id different from 0. -/
def Role.isStone (r : Role) : Bool := decide (r ≠ Role.NONE)

/-- A board maps positions to roles; the source stores a flat 81-cell array
indexed by x * 9 + y, which on in-bounds positions is exactly a function. -/
def Board := Position → Role

/-- The all-empty board (value-initialised array of the source). -/
def Board.empty : Board := fun _ => Role.NONE

/-- Writing one cell of a board. -/
def Board.set (b : Board) (p : Position) (r : Role) : Board :=
  fun q => if q = p then r else b q

/-- The source's in_border check. -/
def in_border (p : Position) : Bool :=
  decide (0 ≤ p.x) && decide (0 ≤ p.y) && decide (p.x < rank_n) && decide (p.y < rank_n)

/-- The four orthogonal displacement vectors of the source. -/
def delta : List Position := [⟨-1, 0⟩, ⟨1, 0⟩, ⟨0, -1⟩, ⟨0, 1⟩]

/-- The source's neighbor: up-to-four in-bounds orthogonally adjacent cells. -/
def neighbor (p : Position) : List Position :=
  (delta.map fun d => p.add d).filter in_border

/-- Whether some in-bounds neighbor of p is empty (the first any_of of the
source's _liberties). -/
def Board.has_empty_neighbor (b : Board) (p : Position) : Bool :=
  (neighbor p).any fun n => !(b n).isStone

/-- One pass of the source's second any_of in _liberties: iterate the
neighbor list, recursing (through rec, the depth-first search at the next
fuel level) into unvisited same-colored neighbors, threading the visited set
exactly as the source threads its visit board by reference. -/
def Board.liberties_fold (b : Board)
    (rec : Position → Finset Position → Bool × Finset Position) (p : Position) :
    List Position → Finset Position → Bool × Finset Position
  | [], visit => (false, visit)
  | n :: ns, visit =>
    if n ∉ visit ∧ b n = b p then
      match rec n visit with
      | (true, v') => (true, v')
      | (false, v') => Board.liberties_fold b rec p ns v'
    else Board.liberties_fold b rec p ns visit

/-- The source's recursive _liberties: mark p visited, succeed if some
neighbor is empty, otherwise search unvisited same-colored neighbors.  The
fuel argument only bounds the recursion depth of the source. -/
def Board.liberties_aux (b : Board) : Nat → Position → Finset Position → Bool × Finset Position
  | 0, _, visit => (false, visit)
  | fuel + 1, p, visit =>
    let visit1 := insert p visit
    if b.has_empty_neighbor p then (true, visit1)
    else Board.liberties_fold b (Board.liberties_aux b fuel) p (neighbor p) visit1

/-- The source's liberties: run the search from p with an empty visited set.
Fuel 82 = one more than the number of cells; the source's recursion marks a
fresh cell at every nesting level, so its depth never exceeds 82. -/
def Board.liberties (b : Board) (p : Position) : Bool :=
  (Board.liberties_aux b 82 p ∅).1

/-- The source's is_capturing: the group at p has no liberty, or some
adjacent opposing group has no liberty. -/
def Board.is_capturing (b : Board) (p : Position) : Bool :=
  !(b.liberties p) ||
    ((neighbor p).any fun n => decide (b n = (b p).neg) && !(b.liberties n))

/-- The source's Board::index: the 81 positions in row-major order. -/
def Board.index : List Position :=
  (List.range 9).flatMap fun i => (List.range 9).map fun j : Nat => ⟨(i : Int), (j : Int)⟩

/-- A state snapshot: board, role to move, last move (source struct State). -/
structure State where
  board : Board
  role : Role
  last_move : Position

/-- The default-constructed State of the source: empty board, BLACK to move,
invalid last move. -/
def State.init : State :=
  { board := Board.empty, role := Role.BLACK, last_move := Position.invalid }

/-- The source's next_state: place the mover's stone, flip the mover, record
the move. -/
def State.next_state (s : State) (p : Position) : State :=
  { board := s.board.set p s.role, role := s.role.neg, last_move := p }

/-- The source's available_actions: empty cells whose play is not immediately
capturing. -/
def State.available_actions (s : State) : List Position :=
  Board.index.filter fun pos =>
    !(s.board pos).isStone && !((s.next_state pos).board.is_capturing pos)

/-- The source's is_over: the role to move wins when the last move exists and
is capturing; NONE otherwise. -/
def State.is_over (s : State) : Role :=
  if s.last_move.isValid && s.board.is_capturing s.last_move then s.role
  else Role.NONE

/-- Modelled from the spec: the player-kind tag of message.hpp (not under
src/), "local-human vs remote-human". -/
inductive PlayerType where
  | LOCAL_HUMAN_PLAYER
  | REMOTE_HUMAN_PLAYER
deriving DecidableEq, Repr

/-- A roster entry (source struct Player).  The Participant_ptr connection
handle is modelled by its pointer identity, a Nat; the source compares these
handles only for equality. -/
structure Player where
  participant : Nat
  name : String
  role : Role
  type : PlayerType
deriving DecidableEq, Repr

/-- The distinguishable error conditions raised by the source (each a
distinct exception object or message). -/
inductive ContestError where
  | playerNotFound
  | playerAlreadyInList
  | noRoleForPlayer
  | roleOccupied
  | contestAlreadyStarted
  | contestNotStarted
  | notAllowedToPlay
  | stoneOccupied
  | notAllowedToConcede
  | notInTurn
  | malformedMessage
deriving DecidableEq, Repr

/-- The roster (source class PlayerList, a vector of players). -/
structure PlayerList where
  players : List Player
deriving DecidableEq, Repr

/-- The source's PlayerList::find: first player matching the criteria, where
role NONE and an absent participant act as wildcards. -/
def PlayerList.findP (l : PlayerList) (role : Role) (participant : Option Nat) : Option Player :=
  l.players.find? fun p =>
    (decide (role = Role.NONE) || decide (p.role = role)) &&
    (participant.isNone || decide (some p.participant = participant))

/-- The source's PlayerList::at: find, throwing when absent. -/
def PlayerList.atP (l : PlayerList) (role : Role) (participant : Option Nat) :
    Except ContestError Player :=
  match l.findP role participant with
  | none => .error .playerNotFound
  | some p => .ok p

/-- The source's PlayerList::contains with the default null participant. -/
def PlayerList.containsRole (l : PlayerList) (role : Role) : Bool :=
  (l.findP role none).isSome

/-- The source's PlayerList::insert: reject an identical player; infer a NONE
role from the single occupied slot (failing when neither role is occupied);
reject an occupied target role; otherwise append. -/
def PlayerList.insert (l : PlayerList) (player : Player) : Except ContestError PlayerList :=
  if player ∈ l.players then .error .playerAlreadyInList
  else
    let inferred : Except ContestError Role :=
      if player.role = Role.NONE then
        if l.containsRole Role.BLACK then .ok Role.WHITE
        else if l.containsRole Role.WHITE then .ok Role.BLACK
        else .error .noRoleForPlayer
      else .ok player.role
    match inferred with
    | .error e => .error e
    | .ok r =>
      if l.containsRole r then .error .roleOccupied
      else .ok ⟨l.players ++ [{ player with role := r }]⟩

/-- The source's PlayerList::size. -/
def PlayerList.size (l : PlayerList) : Nat := l.players.length

/-- Match status (source enum Contest::Status). -/
inductive Status where
  | NOT_PREPARED
  | ON_GOING
  | GAME_OVER
deriving DecidableEq, Repr

/-- Result kind (source enum Contest::WinType). -/
inductive WinType where
  | NONE
  | TIMEOUT
  | SUICIDE
  | GIVEUP
deriving DecidableEq, Repr

/-- Source struct Contest::GameResult. -/
structure GameResult where
  winner : Role
  win_type : WinType
  confirmed : Bool
deriving DecidableEq, Repr

/-- The match state machine (source class Contest).  The wall-clock readings
taken by the source from the system clock are modelled by a Nat argument to
the operations that record them; duration is omitted (never read by the
embedded operations). -/
structure Contest where
  should_giveup : Bool
  current : State
  moves : List Position
  players : PlayerList
  status : Status
  result : GameResult
  start_time : Option Nat
  end_time : Option Nat
  local_role : Role

/-- A freshly constructed Contest (all fields value-initialised as in the
source class, local_role NONE, no clock readings yet). -/
def Contest.init : Contest :=
  { should_giveup := false, current := State.init, moves := [], players := ⟨[]⟩,
    status := .NOT_PREPARED, result := ⟨Role.NONE, .NONE, false⟩,
    start_time := none, end_time := none, local_role := Role.NONE }

/-- The source's Contest::clear: reset everything except the recorded clock
readings (which the source's clear does not touch). -/
def Contest.clear (c : Contest) : Contest :=
  { c with
    should_giveup := false, current := State.init, moves := [], players := ⟨[]⟩,
    status := .NOT_PREPARED, result := ⟨Role.NONE, .NONE, false⟩, local_role := Role.NONE }

/-- The source's Contest::confirm. -/
def Contest.confirm (c : Contest) : Contest :=
  { c with result := { c.result with confirmed := true } }

/-- The source's Contest::reject: only valid before the match starts; clears
the roster. -/
def Contest.reject (c : Contest) : Except ContestError Contest :=
  if c.status ≠ Status.NOT_PREPARED then .error .contestAlreadyStarted
  else .ok { c with players := ⟨[]⟩ }

/-- The source's Contest::enroll: only in NOT_PREPARED; insert into the
roster; once both roles are present, move to ON_GOING and record the start
time. -/
def Contest.enroll (c : Contest) (player : Player) (now : Nat) : Except ContestError Contest :=
  if c.status ≠ Status.NOT_PREPARED then .error .contestAlreadyStarted
  else
    match c.players.insert player with
    | .error e => .error e
    | .ok pl =>
      let c1 := { c with players := pl }
      if c1.players.containsRole Role.BLACK && c1.players.containsRole Role.WHITE then
        .ok { c1 with status := .ON_GOING, start_time := some now }
      else .ok c1

/-- The source's Contest::play: guarded by status, turn and vacancy; derive
the next state, append the move, end the game when the new state is over
(recording the end time), and set the give-up advisory flag when no legal
move remains. -/
def Contest.play (c : Contest) (player : Player) (pos : Position) (now : Nat) :
    Except ContestError Contest :=
  if c.status ≠ Status.ON_GOING then .error .contestNotStarted
  else if c.current.role ≠ player.role then .error .notAllowedToPlay
  else if (c.current.board pos).isStone then .error .stoneOccupied
  else
    let cur := c.current.next_state pos
    let c1 := { c with current := cur, moves := c.moves ++ [pos] }
    let w := cur.is_over
    let c2 :=
      if w ≠ Role.NONE then
        { c1 with status := .GAME_OVER, result := ⟨w, .SUICIDE, false⟩, end_time := some now }
      else c1
    if cur.available_actions.length = 0 then .ok { c2 with should_giveup := true }
    else .ok c2

/-- The source's Contest::concede: only in ON_GOING and only by the roster
entry for the role to move; the opponent wins by GIVEUP. -/
def Contest.concede (c : Contest) (player : Player) (now : Nat) : Except ContestError Contest :=
  if c.status ≠ Status.ON_GOING then .error .contestNotStarted
  else
    match c.players.atP c.current.role none with
    | .error e => .error e
    | .ok q =>
      if q ≠ player then .error .notAllowedToConcede
      else .ok { c with
                 status := .GAME_OVER,
                 result := ⟨player.role.neg, .GIVEUP, false⟩, end_time := some now }

/-- The source's Contest::timeout: only in ON_GOING and only against the
roster entry for the role to move; the opponent wins by TIMEOUT. -/
def Contest.timeout (c : Contest) (player : Player) (now : Nat) : Except ContestError Contest :=
  if c.status ≠ Status.ON_GOING then .error .contestNotStarted
  else
    match c.players.atP c.current.role none with
    | .error e => .error e
    | .ok q =>
      if q ≠ player then .error .notInTurn
      else .ok { c with
                 status := .GAME_OVER,
                 result := ⟨player.role.neg, .TIMEOUT, false⟩, end_time := some now }

/-- Modelled from the spec: the operation codes of the wire protocol
(message.hpp is not under src/; section 6 of the spec lists exactly these). -/
inductive OpCode where
  | UPDATE_UI_STATE_OP
  | START_LOCAL_GAME_OP
  | LOCAL_GAME_TIMEOUT_OP
  | READY_OP
  | REJECT_OP
  | MOVE_OP
  | GIVEUP_OP
  | TIMEOUT_END_OP
  | SUICIDE_END_OP
  | GIVEUP_END_OP
  | LEAVE_OP
  | CHAT_OP
deriving DecidableEq, Repr

/-- Modelled from the spec: a decoded wire message, "{operation code, field-1
string, field-2 string}" (message.hpp is not under src/).  The fields are
kept as character lists because the dispatcher indexes into them. -/
structure Message where
  op : OpCode
  data1 : List Char
  data2 : List Char
deriving DecidableEq, Repr

/-- The observable side effects of one Room dispatch: message deliveries to
participants (identified like Player.participant by connection identity), a
UI-state snapshot delivery, a session stop, and the turn-timer operations. -/
inductive Effect where
  | deliver (participant : Nat) (msg : Message)
  | deliverUi (participant : Nat)
  | stopSession (participant : Nat)
  | cancelTimer
  | armTimer (opponent : Nat)
deriving DecidableEq, Repr

/-- The per-port hub (source class Room): the single Contest, the joined
participants (a set of connection identities) and the bounded recent-message
buffer. -/
structure Room where
  contest : Contest
  participants_ : List Nat
  recent_msgs_ : List Message

/-- The recent-message ring bound of the source: push then drop the oldest
while more than max_recent_msgs = 100 remain. -/
def trimRecent (l : List Message) : List Message := l.drop (l.length - 100)

/-- The source's role decoding used by the dispatcher: "b" is BLACK, "w" is
WHITE, anything else NONE. -/
def decodeRole (s : List Char) : Role :=
  if s = ['b'] then Role.BLACK else if s = ['w'] then Role.WHITE else Role.NONE

/-- An unsigned-integer wire field (the source parses it with stoull, which
throws unless the field starts with a digit). -/
def parseMs (s : List Char) : Option Nat :=
  match s with
  | c :: _ => if c.isDigit then some ((s.takeWhile Char.isDigit).foldl
      (fun a d => 10 * a + (d.toNat - 48)) 0) else none
  | [] => none

/-- The source's Room::process_data: dispatch one inbound message.  Thrown
exceptions (propagated to the Session's read loop, which then stops the
session) are the error case; on success the new Room is returned together
with the list of emitted effects.  Note two faithful oddities of the source:
the chat fan-out delivers to every joined participant including the sender,
and the move-broadcast helper Room::deliver delivers msg repeatedly to the
given participant (once per other participant) rather than to the others. -/
def Room.process_data (room : Room) (msg : Message) (participant : Nat) (is_local : Bool)
    (now : Nat) : Except ContestError (Room × List Effect) :=
  match msg.op with
  | .UPDATE_UI_STATE_OP => .ok (room, [])
  | .START_LOCAL_GAME_OP =>
    let c := if room.contest.status = Status.GAME_OVER then room.contest.clear else room.contest
    let player1 : Player := ⟨participant, "BLACK", Role.BLACK, .LOCAL_HUMAN_PLAYER⟩
    let player2 : Player := ⟨participant, "WHITE", Role.WHITE, .LOCAL_HUMAN_PLAYER⟩
    match c.enroll player1 now with
    | .error e => .error e
    | .ok c1 =>
      match c1.enroll player2 now with
      | .error e => .error e
      | .ok c2 =>
        .ok ({ room with contest := c2 },
             if is_local then [.deliverUi participant] else [])
  | .LOCAL_GAME_TIMEOUT_OP =>
    match room.contest.players.atP (decodeRole msg.data1) (some participant) with
    | .error e => .error e
    | .ok player =>
      match room.contest.timeout player now with
      | .error e => .error e
      | .ok c' =>
        .ok ({ room with contest := c' },
             if is_local then [.deliverUi participant] else [])
  | .READY_OP =>
    let player : Player :=
      ⟨participant, String.mk msg.data1, decodeRole msg.data2, .REMOTE_HUMAN_PLAYER⟩
    match room.contest.enroll player now with
    | .error e => .error e
    | .ok c' => .ok ({ room with contest := c' }, [])
  | .REJECT_OP =>
    match room.contest.reject with
    | .error e => .error e
    | .ok c' => .ok ({ room with contest := c' }, [])
  | .MOVE_OP =>
    match msg.data1 with
    | c1 :: c2 :: _ =>
      let pos : Position := ⟨(c1.toNat : Int) - 65, (c2.toNat : Int) - 49⟩
      match parseMs msg.data2 with
      | none => .error .malformedMessage
      | some _ =>
        match room.contest.players.atP Role.NONE (some participant) with
        | .error e => .error e
        | .ok player =>
          match room.contest.players.atP player.role.neg none with
          | .error e => .error e
          | .ok opponent =>
            match room.contest.play player pos now with
            | .error e => .error e
            | .ok c' =>
              let effs := [Effect.cancelTimer] ++
                (if is_local then [Effect.deliverUi participant] else []) ++
                [Effect.armTimer opponent.participant]
              if c'.result.winner = opponent.role then
                .ok ({ room with
                       contest := c',
                       recent_msgs_ := trimRecent (room.recent_msgs_ ++ [msg]) },
                     effs ++ [Effect.deliver participant ⟨.SUICIDE_END_OP, [], []⟩] ++
                       (room.participants_.filter (fun p => p ≠ participant)).map
                         (fun _ => Effect.deliver participant msg))
              else if c'.result.winner = player.role then
                .ok ({ room with contest := c' },
                     effs ++ [Effect.deliver participant ⟨.GIVEUP_OP, [], []⟩,
                              Effect.deliver opponent.participant ⟨.GIVEUP_END_OP, [], []⟩])
              else .ok ({ room with contest := c' }, effs)
    | _ => .error .malformedMessage
  | .GIVEUP_OP =>
    match room.contest.players.atP (decodeRole msg.data2) (some participant) with
    | .error e => .error e
    | .ok player =>
      match room.contest.concede player now with
      | .error e => .error e
      | .ok c' =>
        .ok ({ room with contest := c' },
             if is_local then [.deliverUi participant] else [])
  | .TIMEOUT_END_OP => .ok (room, [])
  | .SUICIDE_END_OP => .ok (room, [])
  | .GIVEUP_END_OP => .ok (room, [])
  | .LEAVE_OP =>
    .ok ({ room with participants_ := room.participants_.filter (fun p => p ≠ participant) },
         [.stopSession participant])
  | .CHAT_OP =>
    .ok ({ room with recent_msgs_ := trimRecent (room.recent_msgs_ ++ [msg]) },
         room.participants_.map fun q => Effect.deliver q msg)

/-- The source's Position::to_string: a column letter followed by the 1-based
row number. -/
def Position.to_chars (p : Position) : List Char :=
  Char.ofNat (65 + p.x).toNat :: (toString (p.y + 1)).data

/-- The source's stoi (from_chars on int): an optional minus sign followed by
at least one digit; trailing characters are ignored. -/
def stoi (s : List Char) : Option Int :=
  match s with
  | '-' :: rest =>
    match rest with
    | c :: _ =>
      if c.isDigit then
        some (-(((rest.takeWhile Char.isDigit).foldl (fun a d => 10 * a + (d.toNat - 48)) 0 : Nat) : Int))
      else none
    | [] => none
  | c :: _ =>
    if c.isDigit then
      some ((((s.takeWhile Char.isDigit).foldl (fun a d => 10 * a + (d.toNat - 48)) 0 : Nat) : Int))
    else none
  | [] => none

/-- The source's Position(string_view) constructor: column letter minus 'A',
stoi of the rest minus 1. -/
def Position.of_chars (s : List Char) : Option Position :=
  match s with
  | c :: rest =>
    match stoi rest with
    | some n => some ⟨(c.toNat : Int) - 65, n - 1⟩
    | none => none
  | [] => none

/-! Specification-side notions used to state the claims about the liberty
search, and small executable helpers used by the witnesses. -/

/-- One hop of the connected-group relation: v is an in-bounds neighbor of u
carrying the same role as u. -/
def stepRel (b : Board) (u v : Position) : Prop :=
  v ∈ neighbor u ∧ b v = b u

/-- Membership in the connected group: reflexive-transitive closure of
same-colored adjacency. -/
def conn (b : Board) : Position → Position → Prop :=
  Relation.ReflTransGen (stepRel b)

/-- The finite set of the 81 in-bounds positions. -/
def allPos : Finset Position := Board.index.toFinset

/-- The invariant delivered by a failed liberty search: every cell of S has
no empty neighbor, and all of its same-colored neighbors lie in V. -/
def closedS (b : Board) (S V : Finset Position) : Prop :=
  ∀ x ∈ S, b.has_empty_neighbor x = false ∧ ∀ n ∈ neighbor x, b n = b x → n ∈ V

/-- The contest produced by a successful enroll (the input contest on
failure); lets witnesses name intermediate contests by computation. -/
def enrollD (c : Contest) (p : Player) (t : Nat) : Contest := (c.enroll p t).toOption.getD c

/-- The contest produced by a successful play (the input contest on failure). -/
def playD (c : Contest) (p : Player) (pos : Position) (t : Nat) : Contest :=
  (c.play p pos t).toOption.getD c

/-- The contest produced by a successful concede (the input on failure). -/
def concedeD (c : Contest) (p : Player) (t : Nat) : Contest := (c.concede p t).toOption.getD c

/-- The contest produced by a successful timeout (the input on failure). -/
def timeoutD (c : Contest) (p : Player) (t : Nat) : Contest := (c.timeout p t).toOption.getD c

/-- The effect list of a dispatch (empty when the dispatch threw). -/
def resEffects : Except ContestError (Room × List Effect) → List Effect
  | .ok (_, effs) => effs
  | .error _ => []

/-! Concrete fixtures used by witnesses and counterexamples. -/

/-- Two black stones at (0,1) and (1,0): the two liberties of the corner. -/
def wBoard1 : Board := fun p =>
  if p = ⟨0, 1⟩ then Role.BLACK else if p = ⟨1, 0⟩ then Role.BLACK else Role.NONE

/-- Black roster entry of the fixture match. -/
def wPlayerB : Player := ⟨1, "alice", Role.BLACK, .REMOTE_HUMAN_PLAYER⟩

/-- White roster entry of the fixture match. -/
def wPlayerW : Player := ⟨2, "bob", Role.WHITE, .REMOTE_HUMAN_PLAYER⟩

/-- An ongoing fixture match: board wBoard1, white to move. -/
def wContest : Contest :=
  { Contest.init with
    status := .ON_GOING,
    current := { board := wBoard1, role := Role.WHITE, last_move := ⟨1, 0⟩ },
    players := ⟨[wPlayerB, wPlayerW]⟩ }

/-- A fixture room whose participants are the two fixture connections. -/
def wRoom : Room := { contest := Contest.init, participants_ := [1, 2], recent_msgs_ := [] }

/-- A chat message fixture. -/
def wChatMsg : Message := ⟨.CHAT_OP, ['h', 'i'], []⟩

/-- A server-only end notification arriving from a client. -/
def wEndMsg : Message := ⟨.TIMEOUT_END_OP, [], []⟩

/-- A roster candidate with no declared role. -/
def wPlayerN : Player := ⟨3, "carol", Role.NONE, .REMOTE_HUMAN_PLAYER⟩

/-- The fresh contest after enrolling the black fixture player. -/
def wEnroll1 : Contest := enrollD Contest.init wPlayerB 1

/-- The previous contest after additionally enrolling the white player. -/
def wEnroll2 : Contest := enrollD wEnroll1 wPlayerW 2

/-- The fixture match after white plays the self-capturing corner move. -/
def wPlayed : Contest := playD wContest wPlayerW ⟨0, 0⟩ 7

/-! ## Theorems -/

/-- Negation sends stones to stones. -/
theorem Role.neg_ne_none {r : Role} (h : r ≠ Role.NONE) : r.neg ≠ Role.NONE := by
  cases r <;> simp_all [Role.neg]

/-- An in-bounds position satisfies the operator-bool validity check. -/
theorem isValid_of_in_border {p : Position} (h : in_border p = true) : p.isValid = true := by
  simp only [in_border, Bool.and_eq_true, decide_eq_true_eq] at h
  simp [Position.isValid, h.1.1.1, h.1.1.2]

/-- C10: a freshly constructed State, and the Contest state immediately after
clear(), has BLACK (FIRST) to move and the invalid sentinel as last move, and
is_over on it yields NONE: a match is never over before any move. -/
theorem fresh_state_black_not_over (c : Contest) :
    State.init.role = Role.BLACK ∧ State.init.last_move = Position.invalid ∧
    State.init.is_over = Role.NONE ∧
    c.clear.current = State.init ∧ Contest.init.current = State.init ∧
    c.clear.current.role = Role.BLACK ∧ c.clear.current.last_move = Position.invalid ∧
    c.clear.current.is_over = Role.NONE :=
  ⟨rfl, rfl, rfl, rfl, rfl, rfl, rfl, rfl⟩

/-- C9: decoding the coordinate token produced by encoding any in-bounds
position returns that position. -/
theorem position_roundtrip (p : Position) (h : in_border p = true) :
    Position.of_chars (Position.to_chars p) = some p := by
  obtain ⟨x, y⟩ := p
  simp only [in_border, rank_n, Bool.and_eq_true, decide_eq_true_eq] at h
  obtain ⟨⟨⟨hx0, hy0⟩, hx9⟩, hy9⟩ := h
  interval_cases x <;> interval_cases y <;> rfl

/-- Witness for C9 at the concrete position (4, 8), token "E9". -/
theorem position_roundtrip_witness :
    in_border ⟨4, 8⟩ = true ∧ Position.of_chars (Position.to_chars ⟨4, 8⟩) = some ⟨4, 8⟩ :=
  ⟨by decide, position_roundtrip ⟨4, 8⟩ (by decide)⟩

/-- C6: in an ON_GOING match, playing out of turn fails with the
not-allowed-to-play error and playing an occupied cell fails with the
distinct stone-occupied error; the errors leave the returned match
unproduced, so the Match value is unchanged (play is all-or-nothing). -/
theorem play_precondition_all_or_nothing (c : Contest) (player : Player) (pos : Position)
    (now : Nat) :
    (c.status = Status.ON_GOING → c.current.role ≠ player.role →
      c.play player pos now = .error .notAllowedToPlay) ∧
    (c.status = Status.ON_GOING → c.current.role = player.role →
      (c.current.board pos).isStone = true →
      c.play player pos now = .error .stoneOccupied) := by
  constructor
  · intro hs hr
    simp [Contest.play, hs, hr]
  · intro hs hr hb
    simp [Contest.play, hs, hr, hb]

/-- Witness for C6: in the fixture match (white to move) black's play fails
with not-allowed-to-play, and white playing onto the black stone at (0,1)
fails with stone-occupied. -/
theorem play_precondition_witness :
    (wContest.status = Status.ON_GOING ∧ wContest.current.role ≠ wPlayerB.role ∧
      wContest.play wPlayerB ⟨3, 3⟩ 0 = .error .notAllowedToPlay) ∧
    (wContest.current.role = wPlayerW.role ∧ (wContest.current.board ⟨0, 1⟩).isStone = true ∧
      wContest.play wPlayerW ⟨0, 1⟩ 0 = .error .stoneOccupied) :=
  ⟨⟨rfl, by decide,
    (play_precondition_all_or_nothing wContest wPlayerB ⟨3, 3⟩ 0).1 rfl (by decide)⟩,
   ⟨rfl, by decide,
    (play_precondition_all_or_nothing wContest wPlayerW ⟨0, 1⟩ 0).2 rfl rfl (by decide)⟩⟩

/-- C7: concede and timeout succeed exactly when the match is ON_GOING and
the given player is the roster entry for the role to move, and then move the
match to GAME_OVER with the opposing role as winner and kind GIVEUP
respectively TIMEOUT; in every other situation they fail with an error. -/
theorem concede_timeout_guards_and_result (c : Contest) (player : Player) (now : Nat) :
    (∀ c', c.concede player now = .ok c' →
      c.status = Status.ON_GOING ∧ c.players.atP c.current.role none = .ok player ∧
      c'.status = Status.GAME_OVER ∧ c'.result.winner = player.role.neg ∧
      c'.result.win_type = WinType.GIVEUP) ∧
    (c.status = Status.ON_GOING → c.players.atP c.current.role none = .ok player →
      ∃ c', c.concede player now = .ok c') ∧
    (∀ c', c.timeout player now = .ok c' →
      c.status = Status.ON_GOING ∧ c.players.atP c.current.role none = .ok player ∧
      c'.status = Status.GAME_OVER ∧ c'.result.winner = player.role.neg ∧
      c'.result.win_type = WinType.TIMEOUT) ∧
    (c.status = Status.ON_GOING → c.players.atP c.current.role none = .ok player →
      ∃ c', c.timeout player now = .ok c') := by
  refine ⟨?_, ?_, ?_, ?_⟩
  · intro c' h
    by_cases hs : c.status = Status.ON_GOING
    · rcases hq : c.players.atP c.current.role none with e | q
      · simp [Contest.concede, hs, hq] at h
      · by_cases hqp : q = player
        · subst hqp
          simp [Contest.concede, hs, hq] at h
          subst h
          exact ⟨hs, rfl, rfl, rfl, rfl⟩
        · simp [Contest.concede, hs, hq, hqp] at h
    · simp [Contest.concede, hs] at h
  · intro hs hq
    exact ⟨{ c with
             status := .GAME_OVER,
             result := ⟨player.role.neg, .GIVEUP, false⟩, end_time := some now },
      by simp [Contest.concede, hs, hq]⟩
  · intro c' h
    by_cases hs : c.status = Status.ON_GOING
    · rcases hq : c.players.atP c.current.role none with e | q
      · simp [Contest.timeout, hs, hq] at h
      · by_cases hqp : q = player
        · subst hqp
          simp [Contest.timeout, hs, hq] at h
          subst h
          exact ⟨hs, rfl, rfl, rfl, rfl⟩
        · simp [Contest.timeout, hs, hq, hqp] at h
    · simp [Contest.timeout, hs] at h
  · intro hs hq
    exact ⟨{ c with
             status := .GAME_OVER,
             result := ⟨player.role.neg, .TIMEOUT, false⟩, end_time := some now },
      by simp [Contest.timeout, hs, hq]⟩

/-- Witness for C7: in the fixture match white (to move) may concede and be
timed out, with black winning by GIVEUP respectively TIMEOUT. -/
theorem concede_timeout_witness :
    (wContest.status = Status.ON_GOING ∧
      wContest.players.atP wContest.current.role none = .ok wPlayerW ∧
      (∃ c', wContest.concede wPlayerW 3 = .ok c') ∧
      (concedeD wContest wPlayerW 3).status = Status.GAME_OVER ∧
      (concedeD wContest wPlayerW 3).result.winner = wPlayerW.role.neg ∧
      (concedeD wContest wPlayerW 3).result.win_type = WinType.GIVEUP) ∧
    ((∃ c', wContest.timeout wPlayerW 4 = .ok c') ∧
      (timeoutD wContest wPlayerW 4).status = Status.GAME_OVER ∧
      (timeoutD wContest wPlayerW 4).result.winner = wPlayerW.role.neg ∧
      (timeoutD wContest wPlayerW 4).result.win_type = WinType.TIMEOUT) :=
  ⟨⟨rfl, rfl,
    (concede_timeout_guards_and_result wContest wPlayerW 3).2.1 rfl rfl,
    ((concede_timeout_guards_and_result wContest wPlayerW 3).1
      (concedeD wContest wPlayerW 3) rfl).2.2.1,
    ((concede_timeout_guards_and_result wContest wPlayerW 3).1
      (concedeD wContest wPlayerW 3) rfl).2.2.2.1,
    ((concede_timeout_guards_and_result wContest wPlayerW 3).1
      (concedeD wContest wPlayerW 3) rfl).2.2.2.2⟩,
   ⟨(concede_timeout_guards_and_result wContest wPlayerW 4).2.2.2 rfl rfl,
    ((concede_timeout_guards_and_result wContest wPlayerW 4).2.2.1
      (timeoutD wContest wPlayerW 4) rfl).2.2.1,
    ((concede_timeout_guards_and_result wContest wPlayerW 4).2.2.1
      (timeoutD wContest wPlayerW 4) rfl).2.2.2.1,
    ((concede_timeout_guards_and_result wContest wPlayerW 4).2.2.1
      (timeoutD wContest wPlayerW 4) rfl).2.2.2.2⟩⟩

/-- C8: enroll succeeds only in NOT_PREPARED; after two successful
enrollments that fill both roles, the match is ON_GOING and the start time
is recorded (the time handed to the second enroll); every further enroll
attempt fails with the contest-already-started error, leaving the match
unchanged. -/
theorem enroll_two_then_closed (c c1 c2 : Contest) (p1 p2 : Player) (t1 t2 : Nat) :
    (∀ p t, c.status ≠ Status.NOT_PREPARED → c.enroll p t = .error .contestAlreadyStarted) ∧
    (c.enroll p1 t1 = .ok c1 → c1.enroll p2 t2 = .ok c2 →
      c2.players.containsRole Role.BLACK = true → c2.players.containsRole Role.WHITE = true →
      c2.status = Status.ON_GOING ∧ c2.start_time = some t2 ∧
      ∀ p3 t3, c2.enroll p3 t3 = .error .contestAlreadyStarted) := by
  constructor
  · intro p t hs
    simp [Contest.enroll, hs]
  · intro h1 h2 hb hw
    by_cases hs1 : c1.status = Status.NOT_PREPARED
    · rw [Contest.enroll, if_neg (by simp [hs1])] at h2
      rcases hi : c1.players.insert p2 with e | pl
      · rw [hi] at h2; exact absurd h2 (by simp)
      · rw [hi] at h2
        simp only at h2
        rcases hc : (pl.containsRole Role.BLACK && pl.containsRole Role.WHITE) with _ | _
        · rw [hc] at h2
          simp only [Bool.false_eq_true, if_false] at h2
          injection h2 with h2'
          subst h2'
          simp only at hb hw
          simp [hb, hw] at hc
        · rw [hc] at h2
          simp only [if_true] at h2
          injection h2 with h2'
          subst h2'
          refine ⟨rfl, rfl, ?_⟩
          intro p3 t3
          simp [Contest.enroll]
    · rw [Contest.enroll, if_pos hs1] at h2
      exact absurd h2 (by simp)

/-- Witness for C8: enrolling the two fixture players into a fresh contest
succeeds, fills both roles, yields ON_GOING with the second enroll's clock
reading recorded, and a third enroll fails. -/
theorem enroll_two_witness :
    Contest.init.enroll wPlayerB 1 = .ok wEnroll1 ∧
    wEnroll1.enroll wPlayerW 2 = .ok wEnroll2 ∧
    wEnroll2.players.containsRole Role.BLACK = true ∧
    wEnroll2.players.containsRole Role.WHITE = true ∧
    wEnroll2.status = Status.ON_GOING ∧ wEnroll2.start_time = some 2 ∧
    wEnroll2.enroll wPlayerN 3 = .error .contestAlreadyStarted :=
  ⟨rfl, rfl, by decide, by decide,
   ((enroll_two_then_closed Contest.init wEnroll1 wEnroll2 wPlayerB wPlayerW 1 2).2
     rfl rfl (by decide) (by decide)).1,
   ((enroll_two_then_closed Contest.init wEnroll1 wEnroll2 wPlayerB wPlayerW 1 2).2
     rfl rfl (by decide) (by decide)).2.1,
   ((enroll_two_then_closed Contest.init wEnroll1 wEnroll2 wPlayerB wPlayerW 1 2).2
     rfl rfl (by decide) (by decide)).2.2 wPlayerN 3⟩

/-- What a successful play guarantees: the guards held, the new state is the
derived one, the move was appended, and status/result moved to GAME_OVER with
a SUICIDE result exactly when the new state reports the game over. -/
theorem play_ok_elim {c : Contest} {player : Player} {pos : Position} {now : Nat} {c' : Contest}
    (h : c.play player pos now = .ok c') :
    c.status = Status.ON_GOING ∧ c.current.role = player.role ∧
    (c.current.board pos).isStone = false ∧
    c'.current = c.current.next_state pos ∧
    c'.moves = c.moves ++ [pos] ∧
    ((c.current.next_state pos).is_over ≠ Role.NONE →
      c'.status = Status.GAME_OVER ∧
      c'.result = ⟨(c.current.next_state pos).is_over, .SUICIDE, false⟩) ∧
    ((c.current.next_state pos).is_over = Role.NONE →
      c'.status = c.status ∧ c'.result = c.result) := by
  rw [Contest.play] at h
  by_cases hs : c.status = Status.ON_GOING
  · rw [if_neg (by simp [hs])] at h
    by_cases hr : c.current.role = player.role
    · rw [if_neg (by simp [hr])] at h
      by_cases hb : (c.current.board pos).isStone = true
      · rw [if_pos hb] at h
        exact absurd h (by simp)
      · rw [if_neg hb] at h
        simp only at h
        by_cases hw : (c.current.next_state pos).is_over ≠ Role.NONE
        · rw [if_pos hw] at h
          by_cases ha : (c.current.next_state pos).available_actions.length = 0
          · rw [if_pos ha] at h
            injection h with h'
            subst h'
            exact ⟨hs, hr, by simpa using hb, rfl, rfl, fun _ => ⟨rfl, rfl⟩,
              fun hno => absurd hno hw⟩
          · rw [if_neg ha] at h
            injection h with h'
            subst h'
            exact ⟨hs, hr, by simpa using hb, rfl, rfl, fun _ => ⟨rfl, rfl⟩,
              fun hno => absurd hno hw⟩
        · rw [if_neg hw] at h
          by_cases ha : (c.current.next_state pos).available_actions.length = 0
          · rw [if_pos ha] at h
            injection h with h'
            subst h'
            exact ⟨hs, hr, by simpa using hb, rfl, rfl, fun hyes => absurd hyes hw,
              fun _ => ⟨rfl, rfl⟩⟩
          · rw [if_neg ha] at h
            injection h with h'
            subst h'
            exact ⟨hs, hr, by simpa using hb, rfl, rfl, fun hyes => absurd hyes hw,
              fun _ => ⟨rfl, rfl⟩⟩
    · rw [if_pos (by simp [hr])] at h
      exact absurd h (by simp)
  · rw [if_pos (by simp [hs])] at h
    exact absurd h (by simp)

/-- C1: a successful play in an ON_GOING match whose resulting state is
capturing at the played position moves the match to GAME_OVER with kind
SUICIDE, and the recorded winner is exactly the role reported by the new
state's is_over, namely the role to move of the new state, i.e. the opposing
role of the mover — whoever owned the captured group. -/
theorem play_capturing_suicide_result (c : Contest) (player : Player) (pos : Position)
    (now : Nat) (c' : Contest)
    (hrole : c.current.role ≠ Role.NONE)
    (hpos : in_border pos = true)
    (hplay : c.play player pos now = .ok c')
    (hcap : c'.current.board.is_capturing pos = true) :
    c'.status = Status.GAME_OVER ∧ c'.result.win_type = WinType.SUICIDE ∧
    c'.result.winner = c'.current.is_over ∧ c'.result.winner = player.role.neg ∧
    c'.result.winner = c'.current.role := by
  obtain ⟨hs, hr, hb, hcur, hmv, hover, -⟩ := play_ok_elim hplay
  have hcapcur : (c.current.next_state pos).board.is_capturing pos = true := by
    rw [← hcur]; exact hcap
  have hio : (c.current.next_state pos).is_over = (c.current.next_state pos).role := by
    rw [State.is_over]
    rw [if_pos ?_]
    show ((c.current.next_state pos).last_move.isValid &&
      (c.current.next_state pos).board.is_capturing (c.current.next_state pos).last_move) = true
    have hlast : (c.current.next_state pos).last_move = pos := rfl
    rw [hlast, isValid_of_in_border hpos, hcapcur]
    rfl
  have hrolene : (c.current.next_state pos).role ≠ Role.NONE := by
    show c.current.role.neg ≠ Role.NONE
    exact Role.neg_ne_none hrole
  have hne : (c.current.next_state pos).is_over ≠ Role.NONE := by rw [hio]; exact hrolene
  obtain ⟨hst, hres⟩ := hover hne
  refine ⟨hst, by rw [hres], ?_, ?_, ?_⟩
  · rw [hres, hcur, hio]
  · rw [hres]
    show (c.current.next_state pos).is_over = player.role.neg
    rw [hio]
    show c.current.role.neg = player.role.neg
    rw [hr]
  · rw [hres, hcur, hio]

/-- Witness for C1: in the fixture match white plays the corner (0,0), whose
group is then captured; the match ends GAME_OVER / SUICIDE with black (the
non-mover) as winner. -/
theorem play_capturing_suicide_witness :
    (wContest.current.role ≠ Role.NONE ∧ in_border ⟨0, 0⟩ = true ∧
      wContest.play wPlayerW ⟨0, 0⟩ 7 = .ok wPlayed ∧
      wPlayed.current.board.is_capturing ⟨0, 0⟩ = true) ∧
    (wPlayed.status = Status.GAME_OVER ∧ wPlayed.result.win_type = WinType.SUICIDE ∧
      wPlayed.result.winner = wPlayed.current.is_over ∧
      wPlayed.result.winner = wPlayerW.role.neg ∧
      wPlayed.result.winner = wPlayed.current.role) :=
  ⟨⟨by decide, by decide, rfl, by decide⟩,
   play_capturing_suicide_result wContest wPlayerW ⟨0, 0⟩ 7 wPlayed
     (by decide) (by decide) rfl (by decide)⟩

/-- C4 (amended): insert fails exactly when an identical player is already
present, or the role is NONE and inference is impossible because zero or two
roles are occupied, or the (possibly inferred) role is occupied; with a NONE
role and exactly one occupied role it assigns the vacant role; with a fresh
non-NONE vacant role it appends the player unchanged.  Failure returns an
error and produces no list, so the roster is unchanged on every failure. -/
theorem insert_characterization (l : PlayerList) (pl : Player) :
    ((∃ e, l.insert pl = .error e) ↔
      (pl ∈ l.players ∨
        (pl.role = Role.NONE ∧ l.containsRole Role.BLACK = l.containsRole Role.WHITE) ∨
        (pl.role ≠ Role.NONE ∧ l.containsRole pl.role = true))) ∧
    (pl ∉ l.players → pl.role = Role.NONE → l.containsRole Role.BLACK = true →
      l.containsRole Role.WHITE = false →
      l.insert pl = .ok ⟨l.players ++ [{ pl with role := Role.WHITE }]⟩) ∧
    (pl ∉ l.players → pl.role = Role.NONE → l.containsRole Role.WHITE = true →
      l.containsRole Role.BLACK = false →
      l.insert pl = .ok ⟨l.players ++ [{ pl with role := Role.BLACK }]⟩) ∧
    (pl ∉ l.players → pl.role ≠ Role.NONE → l.containsRole pl.role = false →
      l.insert pl = .ok ⟨l.players ++ [pl]⟩) := by
  by_cases hmem : pl ∈ l.players
  · exact ⟨⟨fun _ => Or.inl hmem,
      fun _ => ⟨.playerAlreadyInList, by simp [PlayerList.insert, hmem]⟩⟩,
      fun h => absurd hmem h, fun h => absurd hmem h, fun h => absurd hmem h⟩
  · by_cases hrn : pl.role = Role.NONE
    · rcases cb : l.containsRole Role.BLACK with _ | _
      · rcases cw : l.containsRole Role.WHITE with _ | _
        · have hval : l.insert pl = .error .noRoleForPlayer := by
            simp [PlayerList.insert, hmem, hrn, cb, cw]
          refine ⟨⟨fun _ => Or.inr (Or.inl ⟨hrn, rfl⟩),
            fun _ => ⟨.noRoleForPlayer, hval⟩⟩, ?_, ?_, ?_⟩
          · intro _ _ hb _; exact absurd hb (by simp)
          · intro _ _ hw _; exact absurd hw (by simp)
          · intro _ hne _; exact absurd hrn hne
        · have hval : l.insert pl = .ok ⟨l.players ++ [{ pl with role := Role.BLACK }]⟩ := by
            simp [PlayerList.insert, hmem, hrn, cb, cw]
          refine ⟨⟨?_, ?_⟩, ?_, ?_, ?_⟩
          · rintro ⟨e, he⟩
            rw [hval] at he
            exact absurd he (by simp)
          · rintro (h | ⟨_, hbw⟩ | ⟨hne, _⟩)
            · exact absurd h hmem
            · exact absurd hbw (by simp)
            · exact absurd hrn hne
          · intro _ _ hb _; exact absurd hb (by simp)
          · intro _ _ _ _; exact hval
          · intro _ hne _; exact absurd hrn hne
      · rcases cw : l.containsRole Role.WHITE with _ | _
        · have hval : l.insert pl = .ok ⟨l.players ++ [{ pl with role := Role.WHITE }]⟩ := by
            simp [PlayerList.insert, hmem, hrn, cb, cw]
          refine ⟨⟨?_, ?_⟩, ?_, ?_, ?_⟩
          · rintro ⟨e, he⟩
            rw [hval] at he
            exact absurd he (by simp)
          · rintro (h | ⟨_, hbw⟩ | ⟨hne, _⟩)
            · exact absurd h hmem
            · exact absurd hbw (by simp)
            · exact absurd hrn hne
          · intro _ _ _ _; exact hval
          · intro _ _ hw _; exact absurd hw (by simp)
          · intro _ hne _; exact absurd hrn hne
        · have hval : l.insert pl = .error .roleOccupied := by
            simp [PlayerList.insert, hmem, hrn, cb, cw]
          refine ⟨⟨fun _ => Or.inr (Or.inl ⟨hrn, rfl⟩),
            fun _ => ⟨.roleOccupied, hval⟩⟩, ?_, ?_, ?_⟩
          · intro _ _ _ hw; exact absurd hw (by simp)
          · intro _ _ _ hb; exact absurd hb (by simp)
          · intro _ hne _; exact absurd hrn hne
    · rcases co : l.containsRole pl.role with _ | _
      · have hval : l.insert pl = .ok ⟨l.players ++ [pl]⟩ := by
          simp [PlayerList.insert, hmem, hrn, co]
        refine ⟨⟨?_, ?_⟩, ?_, ?_, ?_⟩
        · rintro ⟨e, he⟩
          rw [hval] at he
          exact absurd he (by simp)
        · rintro (h | ⟨hn, _⟩ | ⟨_, hc⟩)
          · exact absurd h hmem
          · exact absurd hn hrn
          · exact absurd hc (by simp)
        · intro _ hn _ _; exact absurd hn hrn
        · intro _ hn _ _; exact absurd hn hrn
        · intro _ _ _; exact hval
      · have hval : l.insert pl = .error .roleOccupied := by
          simp [PlayerList.insert, hmem, hrn, co]
        refine ⟨⟨fun _ => Or.inr (Or.inr ⟨hrn, rfl⟩),
          fun _ => ⟨.roleOccupied, hval⟩⟩, ?_, ?_, ?_⟩
        · intro _ hn _ _; exact absurd hn hrn
        · intro _ hn _ _; exact absurd hn hrn
        · intro _ _ hc; exact absurd hc (by simp)

/-- Counterexample for C4: inserting a NONE-role player into an empty roster
fails with the no-role error even though both roles are vacant (the claimed
assignment of FIRST never happens; inference needs an existing player). -/
theorem insert_none_empty_counterexample :
    PlayerList.containsRole ⟨[]⟩ Role.BLACK = false ∧
    PlayerList.containsRole ⟨[]⟩ Role.WHITE = false ∧
    PlayerList.insert ⟨[]⟩ wPlayerN = .error .noRoleForPlayer :=
  ⟨by decide, by decide, rfl⟩

/-- Witness for C4 (amended): with BLACK occupied, a NONE-role player is
accepted and assigned WHITE; into an empty roster a declared BLACK player is
appended unchanged. -/
theorem insert_characterization_witness :
    (wPlayerN ∉ [wPlayerB] ∧ wPlayerN.role = Role.NONE ∧
      PlayerList.containsRole ⟨[wPlayerB]⟩ Role.BLACK = true ∧
      PlayerList.containsRole ⟨[wPlayerB]⟩ Role.WHITE = false ∧
      PlayerList.insert ⟨[wPlayerB]⟩ wPlayerN =
        .ok ⟨[wPlayerB] ++ [{ wPlayerN with role := Role.WHITE }]⟩) ∧
    PlayerList.insert ⟨[]⟩ wPlayerB = .ok ⟨[] ++ [wPlayerB]⟩ :=
  ⟨⟨by decide, rfl, by decide, by decide,
    (insert_characterization ⟨[wPlayerB]⟩ wPlayerN).2.1 (by decide) rfl (by decide) (by decide)⟩,
   (insert_characterization ⟨[]⟩ wPlayerB).2.2.2 (by decide) (by decide) (by decide)⟩

/-- C2 (amended): a chat message is appended to the bounded recent buffer
and fanned out to every currently-joined participant — including the sender;
the dispatch never fails. -/
theorem chat_broadcast_includes_sender (room : Room) (msg : Message) (sender : Nat)
    (is_local : Bool) (now : Nat) (hop : msg.op = OpCode.CHAT_OP) :
    room.process_data msg sender is_local now =
      .ok ({ room with recent_msgs_ := trimRecent (room.recent_msgs_ ++ [msg]) },
           room.participants_.map fun q => Effect.deliver q msg) := by
  rcases msg with ⟨op, d1, d2⟩
  subst hop
  rfl

/-- Witness for C2 (amended) at the fixture room. -/
theorem chat_broadcast_witness :
    wChatMsg.op = OpCode.CHAT_OP ∧
    wRoom.process_data wChatMsg 1 false 0 =
      .ok ({ wRoom with recent_msgs_ := trimRecent (wRoom.recent_msgs_ ++ [wChatMsg]) },
           wRoom.participants_.map fun q => Effect.deliver q wChatMsg) :=
  ⟨rfl, chat_broadcast_includes_sender wRoom wChatMsg 1 false 0 rfl⟩

/-- Counterexample for C2: participant 1 is joined and sends a chat, and the
chat is delivered back to participant 1 itself — the broadcast does not
exclude the sender. -/
theorem chat_delivered_to_sender_counterexample :
    1 ∈ wRoom.participants_ ∧
    Effect.deliver 1 wChatMsg ∈ resEffects (wRoom.process_data wChatMsg 1 false 0) :=
  ⟨by decide, by decide⟩

/-- C3 (amended): a server-only end notification (timeout-end, suicide-end,
giveup-end) arriving from a client is silently ignored: the dispatch
succeeds, nothing reaches the Match, the room is unchanged and no effect —
in particular no session termination — is produced. -/
theorem endcode_silently_ignored (room : Room) (msg : Message) (sender : Nat)
    (is_local : Bool) (now : Nat)
    (hop : msg.op = OpCode.TIMEOUT_END_OP ∨ msg.op = OpCode.SUICIDE_END_OP ∨
      msg.op = OpCode.GIVEUP_END_OP) :
    room.process_data msg sender is_local now = .ok (room, []) := by
  rcases msg with ⟨op, d1, d2⟩
  rcases hop with h | h | h <;> subst h <;> rfl

/-- Witness for C3 (amended) at the fixture room. -/
theorem endcode_silently_ignored_witness :
    (wEndMsg.op = OpCode.TIMEOUT_END_OP ∨ wEndMsg.op = OpCode.SUICIDE_END_OP ∨
      wEndMsg.op = OpCode.GIVEUP_END_OP) ∧
    wRoom.process_data wEndMsg 2 true 5 = .ok (wRoom, []) :=
  ⟨Or.inl rfl, endcode_silently_ignored wRoom wEndMsg 2 true 5 (Or.inl rfl)⟩

/-- Counterexample for C3: a timeout-end notification from joined client 1 is
dispatched without error and with an empty effect list, so the offending
session is not terminated (and nothing is logged or broadcast). -/
theorem endcode_no_termination_counterexample :
    wRoom.process_data wEndMsg 1 false 0 = .ok (wRoom, []) ∧
    Effect.stopSession 1 ∉ resEffects (wRoom.process_data wEndMsg 1 false 0) :=
  ⟨rfl, by decide⟩

/-- Row-major index enumerates exactly the in-bounds positions. -/
theorem mem_index (p : Position) : p ∈ Board.index ↔ in_border p = true := by
  obtain ⟨x, y⟩ := p
  constructor
  · intro hmem
    rw [Board.index, List.mem_flatMap] at hmem
    obtain ⟨i, hi, hmem⟩ := hmem
    rw [List.mem_map] at hmem
    obtain ⟨j, hj, heq⟩ := hmem
    rw [List.mem_range] at hi
    rw [List.mem_range] at hj
    injection heq with hx hy
    simp only [in_border, rank_n, Bool.and_eq_true, decide_eq_true_eq]
    omega
  · intro hb
    simp only [in_border, rank_n, Bool.and_eq_true, decide_eq_true_eq] at hb
    rw [Board.index, List.mem_flatMap]
    refine ⟨x.toNat, ?_, ?_⟩
    · rw [List.mem_range]; omega
    · rw [List.mem_map]
      refine ⟨y.toNat, ?_, ?_⟩
      · rw [List.mem_range]; omega
      · have hx : ((x.toNat : Nat) : Int) = x := by omega
        have hy : ((y.toNat : Nat) : Int) = y := by omega
        rw [hx, hy]

/-- The 81-element position set contains exactly the in-bounds positions. -/
theorem mem_allPos (p : Position) : p ∈ allPos ↔ in_border p = true := by
  rw [allPos, List.mem_toFinset]
  exact mem_index p

/-- Neighbors are in bounds. -/
theorem neighbor_in_border {p n : Position} (h : n ∈ neighbor p) : in_border n = true := by
  simp only [neighbor, List.mem_filter] at h
  exact h.2

/-- Adjacency is symmetric between in-bounds cells. -/
theorem neighbor_symm {u v : Position} (hu : in_border u = true) (hv : v ∈ neighbor u) :
    u ∈ neighbor v := by
  simp only [neighbor, List.mem_filter, List.mem_map] at hv ⊢
  obtain ⟨⟨d, hd, hadd⟩, _⟩ := hv
  refine ⟨⟨⟨-d.x, -d.y⟩, ?_, ?_⟩, hu⟩
  · simp only [delta, List.mem_cons, List.not_mem_nil, or_false] at hd ⊢
    rcases hd with rfl | rfl | rfl | rfl <;> simp
  · obtain ⟨ux, uy⟩ := u
    obtain ⟨vx, vy⟩ := v
    obtain ⟨dx, dy⟩ := d
    simp only [Position.add, Position.mk.injEq] at hadd ⊢
    omega

/-- A same-colored hop out of an in-bounds cell can be walked back. -/
theorem stepRel_symm {b : Board} {u v : Position} (hu : in_border u = true)
    (h : stepRel b u v) : stepRel b v u :=
  ⟨neighbor_symm hu h.1, h.2.symm⟩

/-- Group membership stays in bounds when the root is in bounds. -/
theorem conn_in_border {b : Board} {p q : Position} (h : conn b p q)
    (hp : in_border p = true) : in_border q = true := by
  induction h with
  | refl => exact hp
  | tail _ h2 _ => exact neighbor_in_border h2.1

/-- Group membership is symmetric from an in-bounds root. -/
theorem conn_symm {b : Board} {p q : Position} (hp : in_border p = true)
    (h : conn b p q) : conn b q p := by
  induction h with
  | refl => exact Relation.ReflTransGen.refl
  | tail h1 h2 ih => exact Relation.ReflTransGen.head (stepRel_symm (conn_in_border h1 hp) h2) ih

/-- Soundness of one neighbor pass: a true verdict exhibits a group member
with an empty neighbor, provided the recursive searches are sound. -/
theorem liberties_fold_sound (b : Board)
    (rec : Position → Finset Position → Bool × Finset Position) (p : Position)
    (hrec : ∀ n visit, (rec n visit).1 = true →
      ∃ q, conn b n q ∧ b.has_empty_neighbor q = true) :
    ∀ ns visit, (∀ n ∈ ns, n ∈ neighbor p) →
      (Board.liberties_fold b rec p ns visit).1 = true →
      ∃ q, conn b p q ∧ b.has_empty_neighbor q = true := by
  intro ns
  induction ns with
  | nil => intro visit _ h; simp [Board.liberties_fold] at h
  | cons n ns ih =>
    intro visit hsub h
    simp only [Board.liberties_fold] at h
    by_cases hg : n ∉ visit ∧ b n = b p
    · rw [if_pos hg] at h
      split at h
      · rename_i v' heq
        obtain ⟨q, hc, he⟩ := hrec n visit (by rw [heq])
        exact ⟨q, Relation.ReflTransGen.head ⟨hsub n (List.mem_cons_self n ns), hg.2⟩ hc, he⟩
      · exact ih _ (fun m hm => hsub m (List.mem_cons_of_mem _ hm)) h
    · rw [if_neg hg] at h
      exact ih visit (fun m hm => hsub m (List.mem_cons_of_mem _ hm)) h

/-- Soundness of the liberty search: a true verdict exhibits a group member
with an empty neighbor. -/
theorem liberties_aux_sound (b : Board) :
    ∀ fuel p visit, (Board.liberties_aux b fuel p visit).1 = true →
      ∃ q, conn b p q ∧ b.has_empty_neighbor q = true := by
  intro fuel
  induction fuel with
  | zero => intro p visit h; simp [Board.liberties_aux] at h
  | succ f ih =>
    intro p visit h
    simp only [Board.liberties_aux] at h
    by_cases he : b.has_empty_neighbor p = true
    · exact ⟨p, Relation.ReflTransGen.refl, he⟩
    · rw [if_neg he] at h
      exact liberties_fold_sound b (Board.liberties_aux b f) p (fun n v hn => ih n v hn)
        (neighbor p) (insert p visit) (fun n hn => hn) h

/-- Completeness invariant of one neighbor pass: on a false verdict the
visited set only grows, every same-colored neighbor in the list ends up
visited, and every newly visited cell has no empty neighbor and all its
same-colored neighbors visited — given that the recursive searches deliver
the same invariant. -/
theorem liberties_fold_complete (b : Board) (f : Nat) (p : Position)
    (hrec : ∀ n visit res2, Board.liberties_aux b f n visit = res2 → n ∈ allPos →
      n ∉ visit → (allPos \ visit).card ≤ f → res2.1 = false →
      visit ⊆ res2.2 ∧ n ∈ res2.2 ∧ closedS b (res2.2 \ visit) res2.2) :
    ∀ ns visit res, Board.liberties_fold b (Board.liberties_aux b f) p ns visit = res →
      (∀ n ∈ ns, n ∈ neighbor p) → (allPos \ visit).card ≤ f → res.1 = false →
      visit ⊆ res.2 ∧ (∀ n ∈ ns, b n = b p → n ∈ res.2) ∧
      closedS b (res.2 \ visit) res.2 := by
  intro ns
  induction ns with
  | nil =>
    intro visit res hres _ _ _
    simp only [Board.liberties_fold] at hres
    subst hres
    refine ⟨Finset.Subset.refl _, fun n hn => absurd hn (List.not_mem_nil n), ?_⟩
    intro x hx
    rw [Finset.sdiff_self] at hx
    exact absurd hx (Finset.not_mem_empty x)
  | cons n ns ih =>
    intro visit res hres hsub hcard hfalse
    simp only [Board.liberties_fold] at hres
    by_cases hg : n ∉ visit ∧ b n = b p
    · rw [if_pos hg] at hres
      split at hres
      · subst hres
        simp at hfalse
      · rename_i v' heq
        have hnb : in_border n = true := neighbor_in_border (hsub n (List.mem_cons_self n ns))
        obtain ⟨hsub1, hmem1, hcl1⟩ := hrec n visit (false, v') heq ((mem_allPos n).2 hnb)
          hg.1 hcard rfl
        have hcard' : (allPos \ v').card ≤ f :=
          le_trans
            (Finset.card_le_card (Finset.sdiff_subset_sdiff (Finset.Subset.refl _) hsub1))
            hcard
        obtain ⟨hsub2, hall2, hcl2⟩ := ih v' res hres
          (fun m hm => hsub m (List.mem_cons_of_mem _ hm)) hcard' hfalse
        refine ⟨Finset.Subset.trans hsub1 hsub2, ?_, ?_⟩
        · intro m hm hcolor
          rcases List.mem_cons.mp hm with rfl | hm'
          · exact hsub2 hmem1
          · exact hall2 m hm' hcolor
        · intro x hx
          rw [Finset.mem_sdiff] at hx
          by_cases hxv : x ∈ v'
          · obtain ⟨hemp, hnbr⟩ := hcl1 x (Finset.mem_sdiff.mpr ⟨hxv, hx.2⟩)
            exact ⟨hemp, fun m hm hc => hsub2 (hnbr m hm hc)⟩
          · exact hcl2 x (Finset.mem_sdiff.mpr ⟨hx.1, hxv⟩)
    · rw [if_neg hg] at hres
      obtain ⟨hsub2, hall2, hcl2⟩ := ih visit res hres
        (fun m hm => hsub m (List.mem_cons_of_mem _ hm)) hcard hfalse
      refine ⟨hsub2, ?_, hcl2⟩
      intro m hm hcolor
      rcases List.mem_cons.mp hm with rfl | hm'
      · have hmv : m ∈ visit := by
          by_contra hmv
          exact hg ⟨hmv, hcolor⟩
        exact hsub2 hmv
      · exact hall2 m hm' hcolor

/-- Completeness invariant of the liberty search: starting at an in-bounds
unvisited cell with enough fuel, a false verdict leaves the start visited and
every newly visited cell liberty-free with same-colored neighbors visited. -/
theorem liberties_aux_complete (b : Board) :
    ∀ fuel p visit res, Board.liberties_aux b fuel p visit = res → p ∈ allPos →
      p ∉ visit → (allPos \ visit).card ≤ fuel → res.1 = false →
      visit ⊆ res.2 ∧ p ∈ res.2 ∧ closedS b (res.2 \ visit) res.2 := by
  intro fuel
  induction fuel with
  | zero =>
    intro p visit res _ hp hpv hcard _
    exfalso
    have hin : p ∈ allPos \ visit := Finset.mem_sdiff.mpr ⟨hp, hpv⟩
    have h0 : (allPos \ visit).card = 0 := Nat.le_zero.mp hcard
    rw [Finset.card_eq_zero] at h0
    rw [h0] at hin
    exact Finset.not_mem_empty p hin
  | succ f ih =>
    intro p visit res hres hp hpv hcard hfalse
    simp only [Board.liberties_aux] at hres
    by_cases he : b.has_empty_neighbor p = true
    · rw [if_pos he] at hres
      subst hres
      simp at hfalse
    · rw [if_neg he] at hres
      have hcard' : (allPos \ insert p visit).card ≤ f := by
        have h1 : allPos \ insert p visit = (allPos \ visit).erase p := by
          ext z
          simp only [Finset.mem_sdiff, Finset.mem_erase, Finset.mem_insert]
          tauto
        have hpmem : p ∈ allPos \ visit := Finset.mem_sdiff.mpr ⟨hp, hpv⟩
        rw [h1, Finset.card_erase_of_mem hpmem]
        omega
      obtain ⟨hsub1, hall1, hcl1⟩ := liberties_fold_complete b f p ih (neighbor p)
        (insert p visit) res hres (fun n hn => hn) hcard' hfalse
      refine ⟨Finset.Subset.trans (Finset.subset_insert p visit) hsub1,
        hsub1 (Finset.mem_insert_self p visit), ?_⟩
      intro x hx
      rw [Finset.mem_sdiff] at hx
      by_cases hxp : x = p
      · subst hxp
        exact ⟨by simpa using he, fun m hm hc => hall1 m hm hc⟩
      · exact hcl1 x (by
          rw [Finset.mem_sdiff, Finset.mem_insert]
          exact ⟨hx.1, fun hor => hor.elim hxp hx.2⟩)

/-- The source's liberties agrees with the specification predicate: true iff
some member of the connected like-colored group at p has an empty neighbor. -/
theorem liberties_iff_spec (b : Board) (p : Position) (hp : in_border p = true) :
    b.liberties p = true ↔ ∃ q, conn b p q ∧ b.has_empty_neighbor q = true := by
  constructor
  · intro h
    exact liberties_aux_sound b 82 p ∅ h
  · rintro ⟨q, hc, he⟩
    by_contra hfalse
    have h1 : (Board.liberties_aux b 82 p ∅).1 = false := by
      rcases hl : (Board.liberties_aux b 82 p ∅).1 with _ | _
      · rfl
      · exact absurd hl hfalse
    have hcard : (allPos \ (∅ : Finset Position)).card ≤ 82 := by
      rw [Finset.sdiff_empty, allPos]
      have hle := List.toFinset_card_le Board.index
      have hlen : Board.index.length = 81 := rfl
      omega
    obtain ⟨-, hpmem, hcl⟩ := liberties_aux_complete b 82 p ∅ _ rfl ((mem_allPos p).2 hp)
      (Finset.not_mem_empty p) hcard h1
    have hall : ∀ r, conn b p r → r ∈ (Board.liberties_aux b 82 p ∅).2 := by
      intro r hr
      induction hr with
      | refl => exact hpmem
      | tail h1' h2' ih =>
        have hmid := hcl _ (by rw [Finset.sdiff_empty]; exact ih)
        exact hmid.2 _ h2'.1 h2'.2
    have hq2 := hcl q (by rw [Finset.sdiff_empty]; exact hall q hc)
    simp [hq2.1] at he

/-- C5: for every board and occupied in-bounds position, hasLiberty is true
iff the connected group of like-colored stones containing the position has at
least one adjacent empty cell; consequently every member of that group gets
the same liberty verdict. -/
theorem hasLiberty_group_correct (b : Board) (p : Position)
    (_hocc : b p ≠ Role.NONE) (hp : in_border p = true) :
    (b.liberties p = true ↔ ∃ q, conn b p q ∧ b.has_empty_neighbor q = true) ∧
    (∀ q, conn b p q → b.liberties q = b.liberties p) := by
  refine ⟨liberties_iff_spec b p hp, ?_⟩
  intro q hq
  have hqb : in_border q = true := conn_in_border hq hp
  have hiff : b.liberties q = true ↔ b.liberties p = true := by
    rw [liberties_iff_spec b q hqb, liberties_iff_spec b p hp]
    constructor
    · rintro ⟨r, hr, he⟩
      exact ⟨r, Relation.ReflTransGen.trans hq hr, he⟩
    · rintro ⟨r, hr, he⟩
      exact ⟨r, Relation.ReflTransGen.trans (conn_symm hp hq) hr, he⟩
  cases hbq : b.liberties q <;> cases hbp : b.liberties p
  · rfl
  · rw [hbq, hbp] at hiff
    simp at hiff
  · rw [hbq, hbp] at hiff
    simp at hiff
  · rfl

/-- Witness for C5 at the fixture board: the black stone at (0,1). -/
theorem hasLiberty_group_correct_witness :
    (wBoard1 ⟨0, 1⟩ ≠ Role.NONE ∧ in_border ⟨0, 1⟩ = true) ∧
    ((wBoard1.liberties ⟨0, 1⟩ = true ↔
        ∃ q, conn wBoard1 ⟨0, 1⟩ q ∧ wBoard1.has_empty_neighbor q = true) ∧
      (∀ q, conn wBoard1 ⟨0, 1⟩ q → wBoard1.liberties q = wBoard1.liberties ⟨0, 1⟩)) :=
  ⟨⟨by decide, by decide⟩, hasLiberty_group_correct wBoard1 ⟨0, 1⟩ (by decide) (by decide)⟩

end NoGo
